import Mathlib

/-!
# Droplet list data source

A shallow embedding of `digitalocean/datasource_digitalocean_droplet_list.go`:
the pagination loop of `dataSourceDigitalOceanDropletListRead`, the tag filter
`findDropletListByTag` and the projection `exportDropletListProperties`.

Go slices are lists, the Go map `map[string]interface{}` is a finite partial
function from keys to values, Go `int` is `Int` with 64-bit two's-complement
wrap-around on the one addition the file performs, an `error` is its message,
and a Go pointer is an `Option`. A function that can panic returns `none`.
-/

namespace DropletList

/-! ## Data model -/

/-- A `float64`, carried by its IEEE-754 bit pattern; the file only copies prices. -/
structure Float64 where
  bits : Nat
  deriving DecidableEq, Repr

/-- The part of `godo.Region` the file reads. -/
structure Region where
  Slug : String
  deriving DecidableEq, Repr

/-- The part of `godo.Image` the file reads. -/
structure Image where
  ID : Int
  Slug : String
  deriving DecidableEq, Repr

/-- The part of `godo.Size` the file reads. -/
structure Size where
  Slug : String
  PriceHourly : Float64
  PriceMonthly : Float64
  deriving DecidableEq, Repr

/-- Protocol version of a network binding. -/
inductive Protocol where
  | v4
  | v6
  deriving DecidableEq, Repr

/-- Modelled from the spec: the network-binding type is declared outside this
file; the data model describes "a set of IPv4/IPv6 network bindings each tagged
with a visibility scope (public/private) and protocol version". -/
structure NetworkBinding where
  protocol : Protocol
  scope : String
  address : String
  deriving DecidableEq, Repr

/-- The fields of `godo.Droplet` that the file reads, as the value travels
through the loop, the filter and into the projection: `Region`, `Image` and
`Size` are pointers, `none` being nil. `Features` is compared with `nil` by the
source, so `none` is the nil slice and `some []` the empty non-nil slice; `Tags`
and `VolumeIDs` are only ranged over or passed on, where nil and empty behave
alike. -/
structure GodoDroplet where
  ID : Int
  Name : String
  Memory : Int
  Vcpus : Int
  Disk : Int
  Region : Option Region
  Image : Option Image
  Size : Option Size
  Features : Option (List String)
  Locked : Bool
  Status : String
  Networks : List NetworkBinding
  Created : String
  Tags : List String
  VolumeIDs : List String
  deriving DecidableEq, Repr

/-- A `godo.Droplet` whose pointers `Region`, `Image` and `Size` are not nil, with
the pointees in their place: what the body of the projection loop works on once
its dereferences have succeeded. The other fields are those of `GodoDroplet`. -/
structure Droplet where
  ID : Int
  Name : String
  Memory : Int
  Vcpus : Int
  Disk : Int
  Region : Region
  Image : Image
  Size : Size
  Features : Option (List String)
  Locked : Bool
  Status : String
  Networks : List NetworkBinding
  Created : String
  Tags : List String
  VolumeIDs : List String
  deriving DecidableEq, Repr

/-- The dereferences `droplet.Region.Slug`, `droplet.Size.Slug` and
`droplet.Image.Slug` of the projection loop: `none` when one of the three
pointers is nil (the Go runtime panics), the dereferenced droplet otherwise. -/
def GodoDroplet.deref (droplet : GodoDroplet) : Option Droplet :=
  match droplet.Region, droplet.Size, droplet.Image with
  | some region, some size, some image =>
    some
      { ID := droplet.ID, Name := droplet.Name, Memory := droplet.Memory,
        Vcpus := droplet.Vcpus, Disk := droplet.Disk, Region := region, Image := image,
        Size := size, Features := droplet.Features, Locked := droplet.Locked,
        Status := droplet.Status, Networks := droplet.Networks, Created := droplet.Created,
        Tags := droplet.Tags, VolumeIDs := droplet.VolumeIDs }
  | _, _, _ => none

/-! ## The tag filter -/

/-- The inner loop of `findDropletListByTag`: every tag of the droplet equal to
`tag` appends the droplet to `results`. -/
def appendPerMatchingTag (tag : String) (results : List GodoDroplet) (droplet : GodoDroplet) :
    List GodoDroplet :=
  droplet.Tags.foldl
    (fun results candidatetag => if tag = candidatetag then results ++ [droplet] else results)
    results

/-- The function `findDropletListByTag`: two nested range loops over the droplets
and over each droplet's tags. -/
def findDropletListByTag (droplets : List GodoDroplet) (tag : String) : List GodoDroplet :=
  droplets.foldl (appendPerMatchingTag tag) []

/-- The plain membership filter the specification describes for `filterByTag`:
keep a record iff its tag list contains `tag`. -/
def filterByTagSpec (droplets : List GodoDroplet) (tag : String) : List GodoDroplet :=
  droplets.filter (fun droplet => decide (tag ∈ droplet.Tags))

/-- A droplet with every field empty except its identifier and tags; its three
pointers are not nil. -/
def mkDroplet (id : Int) (tags : List String) : GodoDroplet :=
  { ID := id, Name := "", Memory := 0, Vcpus := 0, Disk := 0,
    Region := some { Slug := "" }, Image := some { ID := 0, Slug := "" },
    Size := some { Slug := "", PriceHourly := ⟨0⟩, PriceMonthly := ⟨0⟩ },
    Features := none, Locked := false, Status := "", Networks := [],
    Created := "", Tags := tags, VolumeIDs := [] }

/-! ## The projected item -/

/-- A value stored in a projected item (`interface{}` in the source): the
dynamic types the file stores. -/
inductive Value where
  | str (s : String)
  | int (i : Int)
  | float (f : Float64)
  | bool (b : Bool)
  | set (s : Finset String)
  deriving DecidableEq

/-- A projected item, `map[string]interface{}`: a key is present when it maps to `some`. -/
abbrev Item := String → Option Value

/-- The result of `make(map[string]interface{})`. -/
def Item.empty : Item := fun _ => none

/-- The assignment `item[key] = v`. -/
def Item.set (item : Item) (key : String) (v : Value) : Item :=
  fun k => if k = key then some v else item k

/-- Library functions the file calls whose results it only stores:
`strings.ToLower` and the method `URN` of `godo.Droplet`. -/
structure External where
  ToLower : String → String
  URN : Droplet → String

namespace strconv

/-- The library function `strconv.Itoa`: the base-10 rendering of an `int`. -/
def Itoa (i : Int) : String :=
  if i < 0 then "-" ++ Nat.repr i.natAbs else Nat.repr i.natAbs

end strconv

/-- Modelled from the spec: `findIPv4AddrByType` is defined in another file of the
repository; "scan the record's network-binding set for the first binding whose
scope and protocol match; emit its address only if found". No match yields `""`. -/
def findIPv4AddrByType (droplet : Droplet) (addrType : String) : String :=
  match droplet.Networks.find?
      (fun b => decide (b.protocol = Protocol.v4) && decide (b.scope = addrType)) with
  | some b => b.address
  | none => ""

/-- Modelled from the spec: `findIPv6AddrByType` is defined in another file of the
repository; the same first-match scan for the IPv6 bindings. -/
def findIPv6AddrByType (droplet : Droplet) (addrType : String) : String :=
  match droplet.Networks.find?
      (fun b => decide (b.protocol = Protocol.v6) && decide (b.scope = addrType)) with
  | some b => b.address
  | none => ""

/-- Modelled from the spec: `containsDigitalOceanDropletFeature` is defined in
another file of the repository; "each flag is a boolean computed by
set-membership test against fixed feature names". -/
def containsDigitalOceanDropletFeature (features : List String) (name : String) : Bool :=
  features.contains name

/-- Modelled from the spec: `flattenDigitalOceanDropletVolumeIds` is defined in
another file of the repository; volume identifiers are "emitted as
order-irrelevant sets of strings". -/
def flattenDigitalOceanDropletVolumeIds (volumeids : List String) : Value :=
  Value.set volumeids.toFinset

/-- Modelled from the spec: `flattenTags` is defined in another file of the
repository; tags are "emitted as order-irrelevant sets of strings". -/
def flattenTags (tags : List String) : Value :=
  Value.set tags.toFinset

/-- The body of the range loop of `exportDropletListProperties`: the item built
for one droplet, assignment by assignment in source order. -/
def exportItem (ext : External) (droplet : Droplet) : Item :=
  let item := Item.empty
  let item := item.set "id" (Value.str (strconv.Itoa droplet.ID))
  let item := item.set "name" (Value.str droplet.Name)
  let item := item.set "urn" (Value.str (ext.URN droplet))
  let item := item.set "region" (Value.str droplet.Region.Slug)
  let item := item.set "size" (Value.str droplet.Size.Slug)
  let item := item.set "price_hourly" (Value.float droplet.Size.PriceHourly)
  let item := item.set "price_monthly" (Value.float droplet.Size.PriceMonthly)
  let item := item.set "disk" (Value.int droplet.Disk)
  let item := item.set "vcpus" (Value.int droplet.Vcpus)
  let item := item.set "memory" (Value.int droplet.Memory)
  let item := item.set "status" (Value.str droplet.Status)
  let item := item.set "locked" (Value.bool droplet.Locked)
  let item := item.set "created_at" (Value.str droplet.Created)
  let item :=
    if droplet.Image.Slug = "" then item.set "image" (Value.int droplet.Image.ID)
    else item.set "image" (Value.str droplet.Image.Slug)
  let publicIPv4 := findIPv4AddrByType droplet "public"
  let item := if publicIPv4 ≠ "" then item.set "ipv4_address" (Value.str publicIPv4) else item
  let privateIPv4 := findIPv4AddrByType droplet "private"
  let item :=
    if privateIPv4 ≠ "" then item.set "ipv4_address_private" (Value.str privateIPv4) else item
  let publicIPv6 := findIPv6AddrByType droplet "public"
  let item :=
    if publicIPv6 ≠ "" then item.set "ipv6_address" (Value.str (ext.ToLower publicIPv6))
    else item
  let privateIPv6 := findIPv6AddrByType droplet "private"
  let item :=
    if privateIPv6 ≠ "" then
      item.set "ipv6_address_private" (Value.str (ext.ToLower privateIPv6))
    else item
  let item :=
    match droplet.Features with
    | some features =>
      let item :=
        item.set "backups" (Value.bool (containsDigitalOceanDropletFeature features "backups"))
      let item := item.set "ipv6" (Value.bool (containsDigitalOceanDropletFeature features "ipv6"))
      let item := item.set "private_networking"
        (Value.bool (containsDigitalOceanDropletFeature features "private_networking"))
      item.set "monitoring"
        (Value.bool (containsDigitalOceanDropletFeature features "monitoring"))
    | none => item
  let item := item.set "volume_ids" (flattenDigitalOceanDropletVolumeIds droplet.VolumeIDs)
  let item := item.set "tags" (flattenTags droplet.Tags)
  item

/-- The value types of `schema.ValueType` that the schema of this file uses. -/
inductive ValueType where
  | TypeString
  | TypeInt
  | TypeFloat
  | TypeBool
  | TypeSet
  deriving DecidableEq, Repr

/-- Modelled from the spec: `tagsDataSourceSchema` is defined in another file of the
repository; tags are "emitted as order-irrelevant sets of strings". -/
def tagsDataSourceSchema : ValueType := ValueType.TypeSet

/-- The `Elem` schema of the attribute `droplets` declared by
`dataSourceDigitalOceanDropletList`: each key with its declared `Type`, in source
order. -/
def dropletsElemSchema : List (String × ValueType) :=
  [("id", ValueType.TypeString), ("name", ValueType.TypeString),
   ("created_at", ValueType.TypeString), ("urn", ValueType.TypeString),
   ("region", ValueType.TypeString), ("image", ValueType.TypeString),
   ("size", ValueType.TypeString), ("disk", ValueType.TypeInt),
   ("vcpus", ValueType.TypeInt), ("memory", ValueType.TypeInt),
   ("price_hourly", ValueType.TypeFloat), ("price_monthly", ValueType.TypeFloat),
   ("status", ValueType.TypeString), ("locked", ValueType.TypeBool),
   ("ipv4_address", ValueType.TypeString), ("ipv4_address_private", ValueType.TypeString),
   ("ipv6_address", ValueType.TypeString), ("ipv6_address_private", ValueType.TypeString),
   ("backups", ValueType.TypeBool), ("ipv6", ValueType.TypeBool),
   ("private_networking", ValueType.TypeBool), ("monitoring", ValueType.TypeBool),
   ("volume_ids", ValueType.TypeSet), ("tags", tagsDataSourceSchema)]

/-- Whether the framework decodes a stored value into a field of the declared
type: a string field takes only a string, a bool field only a bool, a set field
only a set, and the two numeric fields take either number. -/
def Value.decodesAs : Value → ValueType → Bool
  | Value.str _, ValueType.TypeString => true
  | Value.int _, ValueType.TypeInt => true
  | Value.float _, ValueType.TypeInt => true
  | Value.int _, ValueType.TypeFloat => true
  | Value.float _, ValueType.TypeFloat => true
  | Value.bool _, ValueType.TypeBool => true
  | Value.set _, ValueType.TypeSet => true
  | _, _ => false

/-- Whether every value the item holds under a key of the schema decodes into the
declared type of that key. (Keys outside the schema are not looked at; the
projection writes none.) -/
def itemConforms (item : Item) : Bool :=
  dropletsElemSchema.all fun entry =>
    match item entry.1 with
    | none => true
    | some v => v.decodesAs entry.2

/-- The part of `schema.ResourceData` the file touches: the configured `tag`
read by `d.Get("tag")`, and the stored value of the attribute `droplets`
(`none` while the attribute has not been set). -/
structure ResourceData where
  tag : String
  droplets : Option (List Item)

/-- The framework call `d.Set("droplets", items)`: the list is written when every
item conforms to the schema declared in this file; otherwise nothing is written
and an error is returned. -/
def ResourceData.Set (d : ResourceData) (items : List Item) : ResourceData × Option String :=
  if items.all itemConforms then ({ d with droplets := some items }, none)
  else (d, some "droplets: value does not match the schema")

/-- The range loop of `exportDropletListProperties`: the items built so far, or
`none` once a nil pointer has been dereferenced. -/
def exportItems (ext : External) (droplets : List GodoDroplet) : Option (List Item) :=
  droplets.foldl
    (fun items droplet =>
      match items, droplet.deref with
      | some items, some droplet => some (items ++ [exportItem ext droplet])
      | _, _ => none)
    (some [])

/-- The function `exportDropletListProperties`: `none` when it panics on a nil
pointer, otherwise the resource data after the call of `d.Set`, whose error the
source discards, and the returned error, always `nil` (`none`). -/
def exportDropletListProperties (ext : External) (d : ResourceData)
    (droplets : List GodoDroplet) : Option (ResourceData × Option String) :=
  match exportItems ext droplets with
  | none => none
  | some items =>
    let (d', _) := d.Set items
    some (d', none)

/-- The sixteen keys assigned on every path through the loop body. -/
def unconditionalKeys : List String :=
  ["id", "name", "created_at", "urn", "region", "image", "size", "disk", "vcpus", "memory",
   "price_hourly", "price_monthly", "status", "locked", "volume_ids", "tags"]

/-- The eight keys assigned under a condition. -/
def conditionalKeys : List String :=
  ["ipv4_address", "ipv4_address_private", "ipv6_address", "ipv6_address_private",
   "backups", "ipv6", "private_networking", "monitoring"]

/-- The four feature-flag keys. -/
def featureKeys : List String :=
  ["backups", "ipv6", "private_networking", "monitoring"]

/-! ## The pagination loop -/

/-- Go `int` arithmetic: reduction into the 64-bit two's-complement range. -/
def wrapInt (x : Int) : Int :=
  (x + 9223372036854775808) % 18446744073709551616 - 9223372036854775808

/-- The fields of `godo.ListOptions` the file sets. -/
structure ListOptions where
  Page : Int
  PerPage : Int
  deriving DecidableEq, Repr

/-- The two observations the file makes of `godo.Links`: the results of its
methods `IsLastPage` and `CurrentPage` (an error is its message). -/
structure Links where
  IsLastPage : Bool
  CurrentPage : Except String Int

/-- The part of `godo.Response` the file reads; `none` is a nil `Links`. -/
structure Response where
  Links : Option Links

/-- The remote call `client.Droplets.List`, as a function of the list options. -/
abbrev Client := ListOptions → Except String (List GodoDroplet × Response)

/-- State at the head of the `for` loop: the options, the accumulator, and the
requests issued so far (a ghost record of the calls to `Droplets.List`). -/
structure LoopState where
  opts : ListOptions
  dropletList : List GodoDroplet
  requests : List ListOptions

/-- How the loop was left: the accumulated list after `break`, or the error
returned from inside the loop; with the requests issued. -/
structure LoopResult where
  result : Except String (List GodoDroplet)
  requests : List ListOptions

/-- One iteration of the `for` loop of `dataSourceDigitalOceanDropletListRead`:
either the state for the next iteration, or the way the loop was left. -/
def loopBody (client : Client) (s : LoopState) : LoopState ⊕ LoopResult :=
  let requests := s.requests ++ [s.opts]
  match client s.opts with
  | Except.error err => Sum.inr ⟨Except.error ("Error retrieving droplets: " ++ err), requests⟩
  | Except.ok (droplets, resp) =>
    let dropletList := droplets.foldl (fun acc droplet => acc ++ [droplet]) s.dropletList
    match resp.Links with
    | none => Sum.inr ⟨Except.ok dropletList, requests⟩
    | some links =>
      if links.IsLastPage then Sum.inr ⟨Except.ok dropletList, requests⟩
      else
        match links.CurrentPage with
        | Except.error err =>
          Sum.inr ⟨Except.error ("Error retrieving droplets: " ++ err), requests⟩
        | Except.ok page =>
          Sum.inl ⟨{ s.opts with Page := wrapInt (page + 1) }, dropletList, requests⟩

/-- The state before the first iteration: page 1, page size 200, empty accumulator. -/
def initialState : LoopState :=
  ⟨{ Page := 1, PerPage := 200 }, [], []⟩

/-- The `for` loop run for at most `fuel` iterations; `none` when it has not been
left by then. -/
def listLoop (client : Client) : Nat → LoopState → Option LoopResult
  | 0, _ => none
  | fuel + 1, s =>
    match loopBody client s with
    | Sum.inl s' => listLoop client fuel s'
    | Sum.inr r => some r

/-- What `dataSourceDigitalOceanDropletListRead` leaves behind: the resource
data, the returned error and the requests issued. -/
structure ReadResult where
  d : ResourceData
  err : Option String
  requests : List ListOptions

/-- The function `dataSourceDigitalOceanDropletListRead`, its loop bounded by
`fuel`; `none` when it does not return: the loop has not been left within
`fuel` iterations, or the projection panics. -/
def dataSourceDigitalOceanDropletListRead (ext : External) (client : Client) (fuel : Nat)
    (d : ResourceData) : Option ReadResult :=
  match listLoop client fuel initialState with
  | none => none
  | some ⟨Except.error msg, requests⟩ => some ⟨d, some msg, requests⟩
  | some ⟨Except.ok dropletList, requests⟩ =>
    let tag := d.tag
    let dropletList := findDropletListByTag dropletList tag
    match exportDropletListProperties ext d dropletList with
    | none => none
    | some (d', err) => some ⟨d', err, requests⟩

/-! ## Vocabulary for statements about the loop -/

/-- The loop state after `k` completed iterations that did not leave the loop;
`none` when the loop was left earlier. -/
def reach (client : Client) : Nat → Option LoopState
  | 0 => some initialState
  | k + 1 =>
    match reach client k with
    | none => none
    | some s =>
      match loopBody client s with
      | Sum.inl s' => some s'
      | Sum.inr _ => none

/-- The fetch for `opts` fails: `Droplets.List` returns an error, or the response
is not a last page and its current page number cannot be read. -/
def fetchFails (client : Client) (opts : ListOptions) : Prop :=
  (∃ err, client opts = Except.error err) ∨
  (∃ droplets links err, client opts = Except.ok (droplets, ⟨some links⟩) ∧
    links.IsLastPage = false ∧ links.CurrentPage = Except.error err)

/-- The response to `opts` is not a last page and reports current page `c`. -/
def reportsNonLast (client : Client) (opts : ListOptions) (c : Int) : Prop :=
  ∃ droplets links, client opts = Except.ok (droplets, ⟨some links⟩) ∧
    links.IsLastPage = false ∧ links.CurrentPage = Except.ok c

/-- The response to `opts` is flagged as the last page: nil `Links`, or
`IsLastPage` true. -/
def reportsLast (client : Client) (opts : ListOptions) : Prop :=
  ∃ droplets resp, client opts = Except.ok (droplets, resp) ∧
    (resp.Links = none ∨ ∃ links, resp.Links = some links ∧ links.IsLastPage = true)

/-- The records returned for page `p` at page size 200 (none on a failed fetch). -/
def pageRecords (client : Client) (p : Int) : List GodoDroplet :=
  match client { Page := p, PerPage := 200 } with
  | Except.ok (droplets, _) => droplets
  | Except.error _ => []

/-- Along the run of the loop, every non-last response reports a current page
number strictly greater than that of the response before it. -/
def monotoneAdvance (client : Client) : Prop :=
  ∀ k s s' c c', reach client k = some s → reach client (k + 1) = some s' →
    reportsNonLast client s.opts c → reportsNonLast client s'.opts c' → c < c'

/-- The loop state after pages `1..k` have been fetched in turn at page size 200:
the next request is for page `k + 1`. -/
def stateAfterPages (client : Client) (k : Nat) : LoopState :=
  ⟨⟨(k : Int) + 1, 200⟩,
    (List.range k).flatMap (fun (i : Nat) => pageRecords client ((i : Int) + 1)),
    (List.range k).map (fun (i : Nat) => (⟨(i : Int) + 1, 200⟩ : ListOptions))⟩

/-- The first response, when it is not a last page, reports a current page number
of at least 1. -/
def firstReportPositive (client : Client) : Prop :=
  ∀ c, reportsNonLast client initialState.opts c → 1 ≤ c

/-- Along the run of the loop, every response that reports a current page number
of `N` or more is flagged as last: no non-last response reports `N` or more. -/
def lastFrom (client : Client) (N : Nat) : Prop :=
  ∀ k s c, reach client k = some s → reportsNonLast client s.opts c → c < (N : Int)

/-! ## Concrete inputs -/

/-- An instance of the library functions for concrete evaluations: ASCII
lower-casing, and the URN format `do:droplet:<id>`. -/
def asciiExternal : External :=
  { ToLower := fun s => String.mk (s.data.map Char.toLower)
    URN := fun droplet => "do:droplet:" ++ strconv.Itoa droplet.ID }

/-- A droplet whose feature list is empty but not nil. -/
def emptyFeaturesDroplet : Droplet :=
  { ID := 11, Name := "", Memory := 0, Vcpus := 0, Disk := 0,
    Region := { Slug := "" }, Image := { ID := 0, Slug := "" },
    Size := { Slug := "", PriceHourly := ⟨0⟩, PriceMonthly := ⟨0⟩ },
    Features := some [], Locked := false, Status := "", Networks := [],
    Created := "", Tags := ["web"], VolumeIDs := [] }

/-- A droplet with features `ipv6` and `monitoring`, an image without slug, one
public IPv4 binding and one public IPv6 binding. -/
def sampleDroplet : Droplet :=
  { ID := 42, Name := "", Memory := 0, Vcpus := 0, Disk := 0,
    Region := { Slug := "" }, Image := { ID := 9001, Slug := "" },
    Size := { Slug := "", PriceHourly := ⟨0⟩, PriceMonthly := ⟨0⟩ },
    Features := some ["ipv6", "monitoring"], Locked := false, Status := "",
    Networks :=
      [⟨Protocol.v4, "public", "203.0.113.7"⟩, ⟨Protocol.v6, "public", "2001:DB8::1"⟩],
    Created := "", Tags := ["web", "prod"], VolumeIDs := [] }

/-- A droplet as the API delivers it for an image without slug: all three
pointers set, image identifier 9001, empty image slug. -/
def sluglessDroplet : GodoDroplet :=
  { mkDroplet 42 ["web"] with Image := some { ID := 9001, Slug := "" } }

/-- A droplet as the API delivers it for an image with slug `ubuntu-20-04-x64`. -/
def slugDroplet : GodoDroplet :=
  { mkDroplet 43 ["web"] with Image := some { ID := 9002, Slug := "ubuntu-20-04-x64" } }

/-- A droplet whose `Region` pointer is nil. -/
def nilRegionDroplet : GodoDroplet :=
  { mkDroplet 44 ["web"] with Region := none }

/-- A remote API with three pages of 200, 200 and 57 records; pages 1 and 2
report their own number and are not last, page 3 is flagged as last. -/
def threePageClient : Client := fun opts =>
  if opts.Page = 1 then
    Except.ok (List.replicate 200 (mkDroplet 1 ["web"]), ⟨some ⟨false, Except.ok 1⟩⟩)
  else if opts.Page = 2 then
    Except.ok (List.replicate 200 (mkDroplet 2 ["web"]), ⟨some ⟨false, Except.ok 2⟩⟩)
  else
    Except.ok (List.replicate 57 (mkDroplet 3 ["web"]), ⟨some ⟨true, Except.ok 3⟩⟩)

/-- A remote API whose first page succeeds and whose second page fails. -/
def failingSecondPageClient : Client := fun opts =>
  if opts.Page = 1 then
    Except.ok ([mkDroplet 1 ["web"]], ⟨some ⟨false, Except.ok 1⟩⟩)
  else
    Except.error "503 Service Unavailable"

/-- A remote API in which only page 2 (and the greatest `int`) is flagged as last
and every other response reports the requested page number plus one. The loop
requests the pages 1, 3, 5, ... and never page 2. -/
def skippingClient : Client := fun opts =>
  if opts.Page = 2 ∨ 9223372036854775807 ≤ opts.Page then
    Except.ok ([], ⟨some ⟨true, Except.ok opts.Page⟩⟩)
  else
    Except.ok ([], ⟨some ⟨false, Except.ok (opts.Page + 1)⟩⟩)

/-! ## Lemmas on the tag filter -/

theorem appendPerMatchingTag_eq (tag : String) (droplet : GodoDroplet)
    (results : List GodoDroplet) :
    appendPerMatchingTag tag results droplet
      = results ++ List.replicate (droplet.Tags.count tag) droplet := by
  unfold appendPerMatchingTag
  generalize droplet.Tags = tags
  induction tags generalizing results with
  | nil => simp
  | cons c cs ih =>
    rw [List.foldl_cons, ih, List.count_cons]
    by_cases h : tag = c
    · subst h
      simp [List.replicate_succ, List.append_assoc]
    · have h' : ¬ (c = tag) := fun e => h e.symm
      simp [h, h']

theorem foldl_appendPerMatchingTag (tag : String) (droplets : List GodoDroplet)
    (results : List GodoDroplet) :
    droplets.foldl (appendPerMatchingTag tag) results
      = results ++ droplets.flatMap (fun d => List.replicate (d.Tags.count tag) d) := by
  induction droplets generalizing results with
  | nil => simp
  | cons d ds ih =>
    rw [List.foldl_cons, ih, appendPerMatchingTag_eq]
    simp [List.append_assoc]

theorem findDropletListByTag_eq_flatMap (R : List GodoDroplet) (t : String) :
    findDropletListByTag R t = R.flatMap (fun d => List.replicate (d.Tags.count t) d) := by
  unfold findDropletListByTag
  rw [foldl_appendPerMatchingTag]
  simp

theorem length_flatMap_replicate (R : List GodoDroplet) (t : String) :
    (R.flatMap (fun d => List.replicate (d.Tags.count t) d)).length
      = (R.map (fun d => d.Tags.count t)).sum := by
  induction R with
  | nil => simp
  | cons d ds ih => simp [List.flatMap_cons, ih]

theorem length_filterByTagSpec_le (R : List GodoDroplet) (t : String) :
    (filterByTagSpec R t).length ≤ (R.map (fun d => d.Tags.count t)).sum := by
  unfold filterByTagSpec
  induction R with
  | nil => simp
  | cons d ds ih =>
    by_cases h : t ∈ d.Tags
    · have hpos : 0 < d.Tags.count t := List.count_pos_iff.mpr h
      simp only [List.filter_cons, h, decide_True, if_true, List.length_cons, List.map_cons,
        List.sum_cons]
      omega
    · simp only [List.filter_cons, h, decide_False, List.map_cons, List.sum_cons]
      simp only [Bool.false_eq_true, if_false]
      omega

theorem flatMap_replicate_eq_filter_iff (R : List GodoDroplet) (t : String) :
    R.flatMap (fun d => List.replicate (d.Tags.count t) d) = filterByTagSpec R t
      ↔ ∀ d ∈ R, d.Tags.count t ≤ 1 := by
  induction R with
  | nil => simp [filterByTagSpec]
  | cons d ds ih =>
    have hle := length_filterByTagSpec_le ds t
    have hlen := length_flatMap_replicate ds t
    by_cases h : t ∈ d.Tags
    · have hpos : 0 < d.Tags.count t := List.count_pos_iff.mpr h
      have hf : filterByTagSpec (d :: ds) t = d :: filterByTagSpec ds t := by
        simp [filterByTagSpec, List.filter_cons, h]
      rw [List.flatMap_cons, hf]
      constructor
      · intro heq
        have hl := congrArg List.length heq
        simp only [List.length_append, List.length_replicate, List.length_cons] at hl
        have h1 : d.Tags.count t = 1 := by omega
        rw [h1] at heq
        simp only [List.replicate_one, List.singleton_append, List.cons.injEq, true_and] at heq
        intro x hx
        rcases List.mem_cons.mp hx with rfl | hx
        · omega
        · exact ih.mp heq x hx
      · intro hall
        have h1 : d.Tags.count t = 1 := by
          have := hall d (List.mem_cons_self _ _)
          omega
        have htl := ih.mpr (fun x hx => hall x (List.mem_cons_of_mem _ hx))
        rw [h1, htl]
        simp
    · have h0 : d.Tags.count t = 0 := List.count_eq_zero.mpr h
      have hf : filterByTagSpec (d :: ds) t = filterByTagSpec ds t := by
        simp [filterByTagSpec, List.filter_cons, h]
      rw [List.flatMap_cons, hf, h0]
      simp only [List.replicate_zero, List.nil_append]
      rw [ih]
      constructor
      · intro hall x hx
        rcases List.mem_cons.mp hx with rfl | hx
        · omega
        · exact hall x hx
      · intro hall x hx
        exact hall x (List.mem_cons_of_mem _ hx)

/-! ## The tag filter: settled statements -/

/-- C10: `findDropletListByTag` emits each droplet once per occurrence of the tag
in its tag list: the result is the in-order concatenation of `count t Tags`
copies of each droplet, its length is the total number of occurrences of `t`,
and it equals the membership filter exactly when no droplet lists `t` more than
once. -/
theorem findDropletListByTag_multiplicity (R : List GodoDroplet) (t : String) :
    findDropletListByTag R t = R.flatMap (fun d => List.replicate (d.Tags.count t) d)
    ∧ (findDropletListByTag R t).length = (R.map (fun d => d.Tags.count t)).sum
    ∧ (findDropletListByTag R t = filterByTagSpec R t ↔ ∀ d ∈ R, d.Tags.count t ≤ 1) := by
  refine ⟨findDropletListByTag_eq_flatMap R t, ?_, ?_⟩
  · rw [findDropletListByTag_eq_flatMap, length_flatMap_replicate]
  · rw [findDropletListByTag_eq_flatMap]
    exact flatMap_replicate_eq_filter_iff R t

/-- C1 (failing input): on the one-droplet list whose droplet carries the tag
`"web"` twice, `findDropletListByTag` returns that droplet twice, whereas the
membership filter of the specification returns it once. -/
theorem findDropletListByTag_duplicate_tag :
    findDropletListByTag [mkDroplet 7 ["web", "web"]] "web"
        = [mkDroplet 7 ["web", "web"], mkDroplet 7 ["web", "web"]]
    ∧ filterByTagSpec [mkDroplet 7 ["web", "web"]] "web" = [mkDroplet 7 ["web", "web"]]
    ∧ findDropletListByTag [mkDroplet 7 ["web", "web"]] "web"
        ≠ filterByTagSpec [mkDroplet 7 ["web", "web"]] "web" := by
  refine ⟨by decide, by decide, by decide⟩

/-! ## The projection: settled statements -/

theorem findIPv4AddrByType_no_match (droplet : Droplet) (addrType : String)
    (h : ∀ b ∈ droplet.Networks, b.protocol = Protocol.v4 → b.scope ≠ addrType) :
    findIPv4AddrByType droplet addrType = "" := by
  unfold findIPv4AddrByType
  have hnone : droplet.Networks.find?
      (fun b => decide (b.protocol = Protocol.v4) && decide (b.scope = addrType)) = none := by
    rw [List.find?_eq_none]
    intro b hb
    have := h b hb
    simp only [Bool.and_eq_true, decide_eq_true_eq, not_and]
    exact this
  rw [hnone]

theorem findIPv6AddrByType_no_match (droplet : Droplet) (addrType : String)
    (h : ∀ b ∈ droplet.Networks, b.protocol = Protocol.v6 → b.scope ≠ addrType) :
    findIPv6AddrByType droplet addrType = "" := by
  unfold findIPv6AddrByType
  have hnone : droplet.Networks.find?
      (fun b => decide (b.protocol = Protocol.v6) && decide (b.scope = addrType)) = none := by
    rw [List.find?_eq_none]
    intro b hb
    have := h b hb
    simp only [Bool.and_eq_true, decide_eq_true_eq, not_and]
    exact this
  rw [hnone]

theorem exportItem_ipv4_address (ext : External) (droplet : Droplet) :
    exportItem ext droplet "ipv4_address"
      = if findIPv4AddrByType droplet "public" = "" then none
        else some (Value.str (findIPv4AddrByType droplet "public")) := by
  cases hF : droplet.Features <;> simp [exportItem, Item.set, Item.empty, ite_apply, hF]

theorem exportItem_ipv4_address_private (ext : External) (droplet : Droplet) :
    exportItem ext droplet "ipv4_address_private"
      = if findIPv4AddrByType droplet "private" = "" then none
        else some (Value.str (findIPv4AddrByType droplet "private")) := by
  cases hF : droplet.Features <;> simp [exportItem, Item.set, Item.empty, ite_apply, hF]

theorem exportItem_ipv6_address (ext : External) (droplet : Droplet) :
    exportItem ext droplet "ipv6_address"
      = if findIPv6AddrByType droplet "public" = "" then none
        else some (Value.str (ext.ToLower (findIPv6AddrByType droplet "public"))) := by
  cases hF : droplet.Features <;> simp [exportItem, Item.set, Item.empty, ite_apply, hF]

theorem exportItem_ipv6_address_private (ext : External) (droplet : Droplet) :
    exportItem ext droplet "ipv6_address_private"
      = if findIPv6AddrByType droplet "private" = "" then none
        else some (Value.str (ext.ToLower (findIPv6AddrByType droplet "private"))) := by
  cases hF : droplet.Features <;> simp [exportItem, Item.set, Item.empty, ite_apply, hF]

theorem foldl_append_singleton_map {α β : Type} (f : α → β) (xs : List α) (acc : List β) :
    xs.foldl (fun items x => items ++ [f x]) acc = acc ++ xs.map f := by
  induction xs generalizing acc with
  | nil => simp
  | cons x xs ih => simp [List.foldl_cons, ih, List.append_assoc]

theorem exportItem_id (ext : External) (droplet : Droplet) :
    exportItem ext droplet "id" = some (Value.str (strconv.Itoa droplet.ID)) := by
  cases hF : droplet.Features <;> simp [exportItem, Item.set, Item.empty, ite_apply, hF]

/-- C5: the `image` value of the projected item is the image's slug when the slug
is non-empty, and the image's numeric identifier when the slug is the empty
string. -/
theorem exportItem_image (ext : External) (droplet : Droplet) :
    exportItem ext droplet "image"
      = some (if droplet.Image.Slug = "" then Value.int droplet.Image.ID
              else Value.str droplet.Image.Slug) := by
  by_cases h : droplet.Image.Slug = "" <;> cases hF : droplet.Features <;>
    simp [exportItem, Item.set, Item.empty, ite_apply, hF, h]

/-- C6: each of the four address keys is present in the projected item exactly
when the corresponding lookup yields a non-empty address; the IPv4 value is that
address unchanged and the IPv6 value is that address passed through
`strings.ToLower`. A droplet with no binding of the matching protocol and scope
has the key absent. -/
theorem exportItem_addresses (ext : External) (droplet : Droplet) :
    (exportItem ext droplet "ipv4_address"
      = if findIPv4AddrByType droplet "public" = "" then none
        else some (Value.str (findIPv4AddrByType droplet "public")))
    ∧ (exportItem ext droplet "ipv4_address_private"
      = if findIPv4AddrByType droplet "private" = "" then none
        else some (Value.str (findIPv4AddrByType droplet "private")))
    ∧ (exportItem ext droplet "ipv6_address"
      = if findIPv6AddrByType droplet "public" = "" then none
        else some (Value.str (ext.ToLower (findIPv6AddrByType droplet "public"))))
    ∧ (exportItem ext droplet "ipv6_address_private"
      = if findIPv6AddrByType droplet "private" = "" then none
        else some (Value.str (ext.ToLower (findIPv6AddrByType droplet "private"))))
    ∧ ((∀ b ∈ droplet.Networks, b.protocol = Protocol.v4 → b.scope ≠ "public") →
        exportItem ext droplet "ipv4_address" = none)
    ∧ ((∀ b ∈ droplet.Networks, b.protocol = Protocol.v4 → b.scope ≠ "private") →
        exportItem ext droplet "ipv4_address_private" = none)
    ∧ ((∀ b ∈ droplet.Networks, b.protocol = Protocol.v6 → b.scope ≠ "public") →
        exportItem ext droplet "ipv6_address" = none)
    ∧ ((∀ b ∈ droplet.Networks, b.protocol = Protocol.v6 → b.scope ≠ "private") →
        exportItem ext droplet "ipv6_address_private" = none) := by
  refine ⟨exportItem_ipv4_address ext droplet, exportItem_ipv4_address_private ext droplet,
    exportItem_ipv6_address ext droplet, exportItem_ipv6_address_private ext droplet,
    ?_, ?_, ?_, ?_⟩
  · intro h
    rw [exportItem_ipv4_address, findIPv4AddrByType_no_match droplet "public" h]
    simp
  · intro h
    rw [exportItem_ipv4_address_private, findIPv4AddrByType_no_match droplet "private" h]
    simp
  · intro h
    rw [exportItem_ipv6_address, findIPv6AddrByType_no_match droplet "public" h]
    simp
  · intro h
    rw [exportItem_ipv6_address_private, findIPv6AddrByType_no_match droplet "private" h]
    simp

/-- C6 (instance): the sample droplet has a public IPv4 and a public IPv6 binding
and no private one: the public keys carry the address (the IPv6 one lower-cased)
and the private IPv4 key is absent. -/
theorem exportItem_addresses_sample :
    exportItem asciiExternal sampleDroplet "ipv4_address" = some (Value.str "203.0.113.7")
    ∧ exportItem asciiExternal sampleDroplet "ipv6_address" = some (Value.str "2001:db8::1")
    ∧ exportItem asciiExternal sampleDroplet "ipv4_address_private" = none := by
  have h := exportItem_addresses asciiExternal sampleDroplet
  refine ⟨?_, ?_, ?_⟩
  · rw [h.1]; decide
  · rw [h.2.2.1]; decide
  · exact h.2.2.2.2.2.1 (by decide)

/-- C4 (counterexample): a droplet whose feature list is empty but not nil still
projects to an item holding all four feature-flag keys, each `false`. -/
theorem exportItem_empty_features_present :
    emptyFeaturesDroplet.Features = some []
    ∧ exportItem asciiExternal emptyFeaturesDroplet "backups" = some (Value.bool false)
    ∧ exportItem asciiExternal emptyFeaturesDroplet "ipv6" = some (Value.bool false)
    ∧ exportItem asciiExternal emptyFeaturesDroplet "private_networking"
        = some (Value.bool false)
    ∧ exportItem asciiExternal emptyFeaturesDroplet "monitoring" = some (Value.bool false) := by
  refine ⟨rfl, by decide, by decide, by decide, by decide⟩

/-- C4 (amended): for each of the four feature-flag keys, the projected item holds
the key exactly when the droplet's feature list is not nil, and then the value is
the membership test of that feature name in the list; a nil feature list
projects to none of the four keys. -/
theorem exportItem_feature_flags (ext : External) (droplet : Droplet) (key : String)
    (hkey : key ∈ featureKeys) :
    exportItem ext droplet key
      = match droplet.Features with
        | none => none
        | some features =>
          some (Value.bool (containsDigitalOceanDropletFeature features key)) := by
  simp only [featureKeys, List.mem_cons, List.mem_singleton, List.mem_nil_iff, or_false] at hkey
  rcases hkey with rfl | rfl | rfl | rfl <;> cases hF : droplet.Features <;>
    simp [exportItem, Item.set, Item.empty, ite_apply, hF]

/-- C4 (amended, instance): the sample droplet with features `ipv6` and
`monitoring` projects `ipv6` to `true`. -/
theorem exportItem_feature_flags_sample :
    "ipv6" ∈ featureKeys
    ∧ exportItem asciiExternal sampleDroplet "ipv6" = some (Value.bool true) := by
  have hmem : "ipv6" ∈ featureKeys := by decide
  refine ⟨hmem, ?_⟩
  rw [exportItem_feature_flags asciiExternal sampleDroplet "ipv6" hmem]
  decide

/-- C7: the projected item always holds the sixteen unconditional keys, and holds
no key outside those sixteen and the eight conditional ones. -/
theorem exportItem_keys (ext : External) (droplet : Droplet) :
    (∀ key ∈ unconditionalKeys, exportItem ext droplet key ≠ none)
    ∧ (∀ key, exportItem ext droplet key ≠ none →
        key ∈ unconditionalKeys ∨ key ∈ conditionalKeys) := by
  constructor
  · intro key hkey
    simp only [unconditionalKeys, List.mem_cons, List.mem_singleton, List.mem_nil_iff,
      or_false] at hkey
    rcases hkey with rfl | rfl | rfl | rfl | rfl | rfl | rfl | rfl | rfl | rfl | rfl | rfl |
      rfl | rfl | rfl | rfl <;> cases hF : droplet.Features <;>
      simp [exportItem, Item.set, Item.empty, ite_apply, hF] <;> split_ifs <;> simp
  · intro key hkey
    by_contra hout
    simp only [unconditionalKeys, conditionalKeys, List.mem_cons, List.mem_singleton,
      List.mem_nil_iff, or_false, not_or] at hout
    obtain ⟨⟨h1, h2, h3, h4, h5, h6, h7, h8, h9, h10, h11, h12, h13, h14, h15, h16⟩,
      c1, c2, c3, c4, c5, c6, c7, c8⟩ := hout
    apply hkey
    cases hF : droplet.Features <;>
      simp [exportItem, Item.set, Item.empty, ite_apply, hF, h1, h2, h3, h4, h5, h6, h7, h8,
        h9, h10, h11, h12, h13, h14, h15, h16, c1, c2, c3, c4, c5, c6, c7, c8]

theorem exportItems_foldl (ext : External) (views : List Droplet)
    (droplets : List GodoDroplet) (items : List Item)
    (h : droplets.map GodoDroplet.deref = views.map some) :
    droplets.foldl
        (fun items droplet =>
          match items, droplet.deref with
          | some items, some droplet => some (items ++ [exportItem ext droplet])
          | _, _ => none)
        (some items)
      = some (items ++ views.map (exportItem ext)) := by
  induction droplets generalizing views items with
  | nil =>
    cases views with
    | nil => simp
    | cons v vs => simp at h
  | cons g gs ih =>
    cases views with
    | nil => simp at h
    | cons v vs =>
      simp only [List.map_cons, List.cons.injEq] at h
      rw [List.foldl_cons, h.1]
      simp only
      rw [ih vs (items ++ [exportItem ext v]) h.2]
      simp [List.append_assoc]

theorem exportItems_of_deref (ext : External) (views : List Droplet)
    (droplets : List GodoDroplet) (h : droplets.map GodoDroplet.deref = views.map some) :
    exportItems ext droplets = some (views.map (exportItem ext)) := by
  unfold exportItems
  rw [exportItems_foldl ext views droplets [] h]
  simp

theorem exportItems_foldl_none (ext : External) (droplets : List GodoDroplet) :
    droplets.foldl
        (fun items droplet =>
          match items, droplet.deref with
          | some items, some droplet => some (items ++ [exportItem ext droplet])
          | _, _ => none)
        none
      = none := by
  induction droplets with
  | nil => rfl
  | cons g gs ih => rw [List.foldl_cons]; exact ih

theorem exportItems_of_nil_pointer (ext : External) (droplets : List GodoDroplet)
    (h : ∃ droplet ∈ droplets, droplet.deref = none) : exportItems ext droplets = none := by
  unfold exportItems
  generalize (some [] : Option (List Item)) = acc
  induction droplets generalizing acc with
  | nil => simp at h
  | cons g gs ih =>
    rw [List.foldl_cons]
    by_cases hg : g.deref = none
    · rw [hg]
      cases acc <;> exact exportItems_foldl_none ext gs
    · obtain ⟨x, hx, hxn⟩ := h
      rcases List.mem_cons.mp hx with rfl | hx
      · exact absurd hxn hg
      · exact ih ⟨x, hx, hxn⟩ _

theorem exportItem_conforms_key (ext : External) (droplet : Droplet) (key : String)
    (t : ValueType) (hkey : (key, t) ∈ dropletsElemSchema) (hne : key ≠ "image") :
    (match exportItem ext droplet key with
      | none => true
      | some v => v.decodesAs t) = true := by
  simp only [dropletsElemSchema, tagsDataSourceSchema, List.mem_cons, Prod.mk.injEq,
    List.mem_singleton, List.mem_nil_iff, or_false] at hkey
  rcases hkey with ⟨rfl, rfl⟩ | ⟨rfl, rfl⟩ | ⟨rfl, rfl⟩ | ⟨rfl, rfl⟩ | ⟨rfl, rfl⟩ | ⟨rfl, rfl⟩ |
    ⟨rfl, rfl⟩ | ⟨rfl, rfl⟩ | ⟨rfl, rfl⟩ | ⟨rfl, rfl⟩ | ⟨rfl, rfl⟩ | ⟨rfl, rfl⟩ | ⟨rfl, rfl⟩ |
    ⟨rfl, rfl⟩ | ⟨rfl, rfl⟩ | ⟨rfl, rfl⟩ | ⟨rfl, rfl⟩ | ⟨rfl, rfl⟩ | ⟨rfl, rfl⟩ | ⟨rfl, rfl⟩ |
    ⟨rfl, rfl⟩ | ⟨rfl, rfl⟩ | ⟨rfl, rfl⟩ | ⟨rfl, rfl⟩ <;>
    first
    | exact absurd rfl hne
    | (cases hF : droplet.Features <;>
        simp [exportItem, Item.set, Item.empty, ite_apply, hF, Value.decodesAs, flattenTags,
          flattenDigitalOceanDropletVolumeIds] <;>
        split_ifs <;> simp [Value.decodesAs])

theorem exportItem_conforms_image (ext : External) (droplet : Droplet) :
    (match exportItem ext droplet "image" with
      | none => true
      | some v => v.decodesAs ValueType.TypeString) = decide (droplet.Image.Slug ≠ "") := by
  by_cases h : droplet.Image.Slug = "" <;> cases hF : droplet.Features <;>
    simp [exportItem, Item.set, Item.empty, ite_apply, hF, h, Value.decodesAs]

theorem itemConforms_exportItem (ext : External) (droplet : Droplet) :
    itemConforms (exportItem ext droplet) = decide (droplet.Image.Slug ≠ "") := by
  by_cases h : droplet.Image.Slug = ""
  · have hfalse : itemConforms (exportItem ext droplet) = false := by
      unfold itemConforms
      rw [List.all_eq_false]
      refine ⟨("image", ValueType.TypeString), by simp [dropletsElemSchema], ?_⟩
      have := exportItem_conforms_image ext droplet
      simp only at this ⊢
      rw [this]
      simp [h]
    rw [hfalse]
    simp [h]
  · have htrue : itemConforms (exportItem ext droplet) = true := by
      unfold itemConforms
      rw [List.all_eq_true]
      rintro ⟨key, t⟩ hmem
      by_cases hk : key = "image"
      · subst hk
        have ht : t = ValueType.TypeString := by
          simp [dropletsElemSchema, tagsDataSourceSchema] at hmem
          exact hmem
        subst ht
        have := exportItem_conforms_image ext droplet
        simp only at this ⊢
        rw [this]
        simp [h]
      · exact exportItem_conforms_key ext droplet key t hmem hk
    rw [htrue]
    simp [h]

/-- When no pointer is nil and every image has a slug, `exportDropletListProperties`
returns nil and `droplets` holds one projected item per droplet, in order. -/
theorem exportDropletListProperties_of_slugs (ext : External) (d : ResourceData)
    (views : List Droplet) (droplets : List GodoDroplet)
    (hderef : droplets.map GodoDroplet.deref = views.map some)
    (hslug : ∀ droplet ∈ views, droplet.Image.Slug ≠ "") :
    exportDropletListProperties ext d droplets
      = some ({ d with droplets := some (views.map (exportItem ext)) }, none) := by
  have hall : (views.map (exportItem ext)).all itemConforms = true := by
    simp only [List.all_eq_true, List.mem_map]
    rintro item ⟨v, hv, rfl⟩
    rw [itemConforms_exportItem]
    exact decide_eq_true (hslug v hv)
  simp [exportDropletListProperties, exportItems_of_deref ext views droplets hderef,
    ResourceData.Set, hall]

/-- When no pointer is nil and some image has an empty slug, `d.Set` rejects the
list: `exportDropletListProperties` returns nil and leaves the resource data as
it was. -/
theorem exportDropletListProperties_of_empty_slug (ext : External) (d : ResourceData)
    (views : List Droplet) (droplets : List GodoDroplet)
    (hderef : droplets.map GodoDroplet.deref = views.map some)
    (hslug : ∃ droplet ∈ views, droplet.Image.Slug = "") :
    exportDropletListProperties ext d droplets = some (d, none) := by
  have hall : (views.map (exportItem ext)).all itemConforms = false := by
    obtain ⟨v, hv, hs⟩ := hslug
    rw [List.all_eq_false]
    refine ⟨exportItem ext v, List.mem_map.mpr ⟨v, hv, rfl⟩, ?_⟩
    rw [itemConforms_exportItem]
    simp [hs]
  simp [exportDropletListProperties, exportItems_of_deref ext views droplets hderef,
    ResourceData.Set, hall]

/-- When some droplet has a nil `Region`, `Image` or `Size`, the function panics. -/
theorem exportDropletListProperties_of_nil_pointer (ext : External) (d : ResourceData)
    (droplets : List GodoDroplet) (h : ∃ droplet ∈ droplets, droplet.deref = none) :
    exportDropletListProperties ext d droplets = none := by
  simp [exportDropletListProperties, exportItems_of_nil_pointer ext droplets h]

/-- A droplet with a nil `Region` makes `exportDropletListProperties` panic. -/
theorem exportDropletListProperties_nilRegion :
    exportDropletListProperties asciiExternal ⟨"web", none⟩ [slugDroplet, nilRegionDroplet]
      = none :=
  exportDropletListProperties_of_nil_pointer asciiExternal ⟨"web", none⟩
    [slugDroplet, nilRegionDroplet] ⟨nilRegionDroplet, by simp, rfl⟩

/-- C8 (failing input): the schema declares `image` as a string, the item
projected for a droplet with an empty image slug holds the integer identifier
under `image`, and on the two-droplet list whose second droplet is that one
`exportDropletListProperties` returns nil with `droplets` still unset, although
the one-droplet list without it is stored as one item. -/
theorem exportDropletListProperties_slugless_unset :
    dropletsElemSchema.lookup "image" = some ValueType.TypeString
    ∧ sluglessDroplet.deref.map (fun droplet => exportItem asciiExternal droplet "image")
        = some (some (Value.int 9001))
    ∧ (exportDropletListProperties asciiExternal ⟨"web", none⟩
          [slugDroplet, sluglessDroplet]).map (fun r => (r.1.droplets.isSome, r.2))
        = some (false, none)
    ∧ (exportDropletListProperties asciiExternal ⟨"web", none⟩
          [slugDroplet]).map (fun r => (r.1.droplets.map List.length, r.2))
        = some (some 1, none) := by
  refine ⟨by decide, by decide, by decide, by decide⟩

/-! ## Lemmas on the pagination loop -/

theorem foldl_append_singleton {α : Type} (xs acc : List α) :
    xs.foldl (fun acc x => acc ++ [x]) acc = acc ++ xs := by
  induction xs generalizing acc with
  | nil => simp
  | cons x xs ih => simp [List.foldl_cons, ih, List.append_assoc]

theorem wrapInt_of_range (x : Int) (hlo : -9223372036854775808 ≤ x)
    (hhi : x < 9223372036854775808) : wrapInt x = x := by
  unfold wrapInt
  omega

theorem loopBody_nonLast (client : Client) (s : LoopState) (droplets : List GodoDroplet)
    (links : Links) (c : Int) (hc : client s.opts = Except.ok (droplets, ⟨some links⟩))
    (hl : links.IsLastPage = false) (hp : links.CurrentPage = Except.ok c) :
    loopBody client s
      = Sum.inl ⟨{ s.opts with Page := wrapInt (c + 1) }, s.dropletList ++ droplets,
          s.requests ++ [s.opts]⟩ := by
  simp [loopBody, hc, hl, hp, foldl_append_singleton]

theorem loopBody_last (client : Client) (s : LoopState) (droplets : List GodoDroplet)
    (resp : Response) (hc : client s.opts = Except.ok (droplets, resp))
    (hl : resp.Links = none ∨ ∃ links, resp.Links = some links ∧ links.IsLastPage = true) :
    loopBody client s
      = Sum.inr ⟨Except.ok (s.dropletList ++ droplets), s.requests ++ [s.opts]⟩ := by
  rcases hl with hl | ⟨links, hl, hlast⟩
  · simp [loopBody, hc, hl, foldl_append_singleton]
  · simp [loopBody, hc, hl, hlast, foldl_append_singleton]

theorem loopBody_fails (client : Client) (s : LoopState) (h : fetchFails client s.opts) :
    ∃ msg, loopBody client s = Sum.inr ⟨Except.error msg, s.requests ++ [s.opts]⟩ := by
  rcases h with ⟨err, he⟩ | ⟨droplets, links, err, hc, hl, hp⟩
  · exact ⟨"Error retrieving droplets: " ++ err, by simp [loopBody, he]⟩
  · exact ⟨"Error retrieving droplets: " ++ err, by simp [loopBody, hc, hl, hp]⟩

theorem loopBody_inl_inv (client : Client) (s s' : LoopState)
    (h : loopBody client s = Sum.inl s') :
    ∃ droplets links c, client s.opts = Except.ok (droplets, ⟨some links⟩)
      ∧ links.IsLastPage = false ∧ links.CurrentPage = Except.ok c
      ∧ s' = ⟨{ s.opts with Page := wrapInt (c + 1) }, s.dropletList ++ droplets,
          s.requests ++ [s.opts]⟩ := by
  unfold loopBody at h
  cases hc : client s.opts with
  | error err => simp [hc] at h
  | ok pr =>
    obtain ⟨droplets, resp⟩ := pr
    obtain ⟨lk⟩ := resp
    cases lk with
    | none => simp [hc] at h
    | some links =>
      cases hl : links.IsLastPage with
      | true => simp [hc, hl] at h
      | false =>
        cases hp : links.CurrentPage with
        | error err => simp [hc, hl, hp] at h
        | ok c =>
          simp [hc, hl, hp, foldl_append_singleton] at h
          exact ⟨droplets, links, c, rfl, hl, hp, h.symm⟩

theorem reach_succ_inv (client : Client) (k : Nat) (s' : LoopState)
    (h : reach client (k + 1) = some s') :
    ∃ s, reach client k = some s ∧ loopBody client s = Sum.inl s' := by
  simp only [reach] at h
  cases hk : reach client k with
  | none => simp [hk] at h
  | some s =>
    cases hb : loopBody client s with
    | inl t =>
      simp [hk, hb] at h
      exact ⟨s, rfl, by rw [hb, h]⟩
    | inr r => simp [hk, hb] at h

theorem reach_succ_of (client : Client) (k : Nat) (s s' : LoopState)
    (hk : reach client k = some s) (hb : loopBody client s = Sum.inl s') :
    reach client (k + 1) = some s' := by
  simp [reach, hk, hb]

theorem listLoop_of_reach (client : Client) (k : Nat) (s : LoopState)
    (hk : reach client k = some s) (n : Nat) :
    listLoop client (k + n) initialState = listLoop client n s := by
  induction k generalizing s n with
  | zero =>
    simp only [reach, Option.some.injEq] at hk
    simp [hk]
  | succ k ih =>
    obtain ⟨t, ht, hb⟩ := reach_succ_inv client k s hk
    have h1 : k + 1 + n = k + (n + 1) := by omega
    rw [h1, ih t ht (n + 1)]
    simp [listLoop, hb]

theorem listLoop_of_exit (client : Client) (k : Nat) (s : LoopState) (r : LoopResult)
    (hk : reach client k = some s) (hb : loopBody client s = Sum.inr r)
    (fuel : Nat) (hfuel : k < fuel) :
    listLoop client fuel initialState = some r := by
  obtain ⟨n, rfl⟩ : ∃ n, fuel = k + (n + 1) := ⟨fuel - k - 1, by omega⟩
  rw [listLoop_of_reach client k s hk (n + 1)]
  simp [listLoop, hb]

theorem reach_requests_length (client : Client) (k : Nat) (s : LoopState)
    (hk : reach client k = some s) : s.requests.length = k := by
  induction k generalizing s with
  | zero =>
    simp only [reach, Option.some.injEq] at hk
    simp [← hk, initialState]
  | succ k ih =>
    obtain ⟨t, ht, hb⟩ := reach_succ_inv client k s hk
    obtain ⟨droplets, links, c, _, _, _, hs⟩ := loopBody_inl_inv client t s hb
    simp [hs, ih t ht]

theorem reach_perPage (client : Client) (k : Nat) (s : LoopState)
    (hk : reach client k = some s) : s.opts.PerPage = 200 := by
  induction k generalizing s with
  | zero =>
    simp only [reach, Option.some.injEq] at hk
    simp [← hk, initialState]
  | succ k ih =>
    obtain ⟨t, ht, hb⟩ := reach_succ_inv client k s hk
    obtain ⟨droplets, links, c, _, _, _, hs⟩ := loopBody_inl_inv client t s hb
    simp [hs, ih t ht]

/-! ## The pagination loop: settled statements -/

/-- C3: when the loop has completed `k` iterations and the fetch it issues next
fails (`Droplets.List` returns an error, or the current page cannot be read),
the read returns an error for every fuel above `k`, the failing request is the
last one issued (`k + 1` requests in all), and the resource data is returned
unchanged, so `droplets` is not set. -/
theorem read_aborts_on_fetch_failure (ext : External) (client : Client) (d : ResourceData)
    (k : Nat) (s : LoopState) (fuel : Nat) (hreach : reach client k = some s)
    (hfail : fetchFails client s.opts) (hfuel : k < fuel) :
    ∃ msg, dataSourceDigitalOceanDropletListRead ext client fuel d
        = some ⟨d, some msg, s.requests ++ [s.opts]⟩
      ∧ (s.requests ++ [s.opts]).length = k + 1 := by
  obtain ⟨msg, hb⟩ := loopBody_fails client s hfail
  refine ⟨msg, ?_, ?_⟩
  · have hl := listLoop_of_exit client k s _ hreach hb fuel hfuel
    simp [dataSourceDigitalOceanDropletListRead, hl]
  · simp [reach_requests_length client k s hreach]

/-- C3 (instance): the first page succeeds, the second fetch fails: the read
returns an error after exactly the two requests for pages 1 and 2, and
`droplets` stays unset although page 1 delivered a matching droplet. -/
theorem read_aborts_on_second_page :
    ∃ msg, dataSourceDigitalOceanDropletListRead asciiExternal failingSecondPageClient 10
        ⟨"web", none⟩
        = some ⟨⟨"web", none⟩, some msg, [⟨1, 200⟩] ++ [⟨2, 200⟩]⟩
      ∧ ([(⟨1, 200⟩ : ListOptions)] ++ [(⟨2, 200⟩ : ListOptions)]).length = 1 + 1 :=
  read_aborts_on_fetch_failure asciiExternal failingSecondPageClient ⟨"web", none⟩ 1
    ⟨⟨2, 200⟩, [mkDroplet 1 ["web"]], [⟨1, 200⟩]⟩ 10 rfl (Or.inl ⟨_, rfl⟩) (by decide)

theorem pageRecords_of_ok (client : Client) (p : Int) (droplets : List GodoDroplet)
    (resp : Response) (h : client ⟨p, 200⟩ = Except.ok (droplets, resp)) :
    pageRecords client p = droplets := by
  simp [pageRecords, h]

theorem reach_of_own_page_numbers (client : Client) (N : Nat)
    (hmax : (N : Int) < 9223372036854775808)
    (hmid : ∀ p : Nat, 1 ≤ p → p < N → reportsNonLast client ⟨(p : Int), 200⟩ (p : Int))
    (k : Nat) (hk : k < N) :
    reach client k = some (stateAfterPages client k) := by
  induction k with
  | zero => simp [reach, initialState, stateAfterPages]
  | succ k ih =>
    have hprev := ih (by omega)
    obtain ⟨droplets, links, hc, hl, hp⟩ := hmid (k + 1) (by omega) (by omega)
    have hcast : ((k + 1 : Nat) : Int) = (k : Int) + 1 := by push_cast; rfl
    have hc' : client (stateAfterPages client k).opts
        = Except.ok (droplets, ⟨some links⟩) := by
      simp only [stateAfterPages, ← hcast]; exact hc
    have hp' : links.CurrentPage = Except.ok ((k : Int) + 1) := by
      rw [hp, hcast]
    have hb := loopBody_nonLast client (stateAfterPages client k) droplets links
      ((k : Int) + 1) hc' hl hp'
    rw [reach_succ_of client k _ _ hprev hb]
    have hw : wrapInt ((k : Int) + 1 + 1) = ((k + 1 : Nat) : Int) + 1 := by
      rw [wrapInt_of_range] <;> push_cast <;> omega
    have hrec : pageRecords client ((k : Int) + 1) = droplets :=
      pageRecords_of_ok client _ droplets _ (by simpa [stateAfterPages] using hc')
    simp only [stateAfterPages, hw, List.range_succ, List.flatMap_append, List.map_append,
      List.flatMap_cons, List.flatMap_nil, List.append_nil, List.map_cons, List.map_nil, hrec]

/-- C2: for a remote API whose pages 1..N-1 report their own page number and are
not last, and whose page N is flagged as last, the loop leaves with exactly the
concatenation of the records of pages 1, 2, ..., N, in page order and within-page
order, after requesting the pages 1..N at page size 200. -/
theorem listLoop_concatenates_pages (client : Client) (N : Nat) (fuel : Nat) (hN : 1 ≤ N)
    (hmax : (N : Int) < 9223372036854775808)
    (hmid : ∀ p : Nat, 1 ≤ p → p < N → reportsNonLast client ⟨(p : Int), 200⟩ (p : Int))
    (hlast : reportsLast client ⟨(N : Int), 200⟩) (hfuel : N ≤ fuel) :
    listLoop client fuel initialState
      = some ⟨Except.ok
            ((List.range N).flatMap (fun (i : Nat) => pageRecords client ((i : Int) + 1))),
          (List.range N).map (fun (i : Nat) => (⟨(i : Int) + 1, 200⟩ : ListOptions))⟩ := by
  obtain ⟨k, rfl⟩ : ∃ k, N = k + 1 := ⟨N - 1, by omega⟩
  have hk := reach_of_own_page_numbers client (k + 1) hmax hmid k (by omega)
  obtain ⟨droplets, resp, hc, hl⟩ := hlast
  have hcast : ((k + 1 : Nat) : Int) = (k : Int) + 1 := by push_cast; rfl
  have hc' : client (stateAfterPages client k).opts = Except.ok (droplets, resp) := by
    simp only [stateAfterPages, ← hcast]; exact hc
  have hb := loopBody_last client (stateAfterPages client k) droplets resp hc' hl
  rw [listLoop_of_exit client k _ _ hk hb fuel (by omega)]
  have hrec : pageRecords client ((k : Int) + 1) = droplets :=
    pageRecords_of_ok client _ droplets _ (by simpa [stateAfterPages] using hc')
  simp only [stateAfterPages, List.range_succ, List.flatMap_append, List.map_append,
    List.flatMap_cons, List.flatMap_nil, List.append_nil, List.map_cons, List.map_nil, hrec]

/-- C2 (instance): three pages of 200, 200 and 57 records, the third flagged as
last: the loop leaves after three requests with exactly 457 records, the 200 of
page 1 first, then the 200 of page 2, then the 57 of page 3. -/
theorem listLoop_three_pages :
    listLoop threePageClient 3 initialState
      = some ⟨Except.ok ((List.range 3).flatMap
            (fun (i : Nat) => pageRecords threePageClient ((i : Int) + 1))),
          (List.range 3).map (fun (i : Nat) => (⟨(i : Int) + 1, 200⟩ : ListOptions))⟩
    ∧ (List.range 3).flatMap (fun (i : Nat) => pageRecords threePageClient ((i : Int) + 1))
        = List.replicate 200 (mkDroplet 1 ["web"]) ++ List.replicate 200 (mkDroplet 2 ["web"])
          ++ List.replicate 57 (mkDroplet 3 ["web"])
    ∧ ((List.range 3).flatMap
        (fun (i : Nat) => pageRecords threePageClient ((i : Int) + 1))).length = 457 := by
  have hflat : (List.range 3).flatMap (fun (i : Nat) => pageRecords threePageClient ((i : Int) + 1))
      = List.replicate 200 (mkDroplet 1 ["web"]) ++ List.replicate 200 (mkDroplet 2 ["web"])
        ++ List.replicate 57 (mkDroplet 3 ["web"]) := by
    have hr : List.range 3 = [0, 1, 2] := by decide
    have h1 : pageRecords threePageClient (((0 : Nat) : Int) + 1)
        = List.replicate 200 (mkDroplet 1 ["web"]) := rfl
    have h2 : pageRecords threePageClient (((1 : Nat) : Int) + 1)
        = List.replicate 200 (mkDroplet 2 ["web"]) := rfl
    have h3 : pageRecords threePageClient (((2 : Nat) : Int) + 1)
        = List.replicate 57 (mkDroplet 3 ["web"]) := rfl
    rw [hr]
    simp only [List.flatMap_cons, List.flatMap_nil, h1, h2, h3, List.append_nil,
      List.append_assoc]
  refine ⟨?_, hflat, ?_⟩
  · refine listLoop_concatenates_pages threePageClient 3 3 (by decide) (by decide) ?_ ?_
      (le_refl 3)
    · intro p h1 h3
      interval_cases p
      · exact ⟨_, _, rfl, rfl, rfl⟩
      · exact ⟨_, _, rfl, rfl, rfl⟩
    · exact ⟨_, _, rfl, Or.inr ⟨_, rfl, rfl⟩⟩
  · rw [hflat]
    simp only [List.length_append, List.length_replicate]

theorem reportsNonLast_skippingClient (opts : ListOptions) (c : Int)
    (h : reportsNonLast skippingClient opts c) :
    opts.Page ≠ 2 ∧ opts.Page < 9223372036854775807 ∧ c = opts.Page + 1 := by
  obtain ⟨droplets, links, hc, hl, hp⟩ := h
  unfold skippingClient at hc
  by_cases hcond : opts.Page = 2 ∨ 9223372036854775807 ≤ opts.Page
  · rw [if_pos hcond] at hc
    simp only [Except.ok.injEq, Prod.mk.injEq, Response.mk.injEq, Option.some.injEq] at hc
    rw [← hc.2] at hl
    simp at hl
  · rw [if_neg hcond] at hc
    simp only [Except.ok.injEq, Prod.mk.injEq, Response.mk.injEq, Option.some.injEq] at hc
    rw [← hc.2] at hp
    simp only [Except.ok.injEq] at hp
    refine ⟨fun h2 => hcond (Or.inl h2), ?_, hp.symm⟩
    by_contra hge
    exact hcond (Or.inr (by omega))

theorem reach_skippingClient_odd (k : Nat) (s : LoopState)
    (hk : reach skippingClient k = some s) :
    s.opts.Page % 2 = 1 ∧ 1 ≤ s.opts.Page ∧ s.opts.Page ≤ 9223372036854775807 := by
  induction k generalizing s with
  | zero =>
    simp only [reach, Option.some.injEq] at hk
    rw [← hk]
    simp [initialState]
  | succ k ih =>
    obtain ⟨t, ht, hb⟩ := reach_succ_inv skippingClient k s hk
    obtain ⟨droplets, links, c, hc, hl, hp, hs⟩ := loopBody_inl_inv skippingClient t s hb
    obtain ⟨h2, hlt, hcv⟩ :=
      reportsNonLast_skippingClient t.opts c ⟨droplets, links, hc, hl, hp⟩
    obtain ⟨hodd, hpos, _⟩ := ih t ht
    have hw : wrapInt (c + 1) = c + 1 := by
      rw [wrapInt_of_range] <;> omega
    rw [hs]
    simp only [hw]
    omega

theorem monotoneAdvance_skippingClient : monotoneAdvance skippingClient := by
  intro k s s' c c' hk hk' hc hc'
  obtain ⟨t, ht, hb⟩ := reach_succ_inv skippingClient k s' hk'
  rw [hk] at ht
  simp only [Option.some.injEq] at ht
  subst ht
  obtain ⟨droplets, links, c0, hcl, hl, hp, hs⟩ := loopBody_inl_inv skippingClient s s' hb
  obtain ⟨_, hlt, hcv⟩ := reportsNonLast_skippingClient s.opts c hc
  obtain ⟨_, _, hc0⟩ :=
    reportsNonLast_skippingClient s.opts c0 ⟨droplets, links, hcl, hl, hp⟩
  obtain ⟨_, _, hcv'⟩ := reportsNonLast_skippingClient s'.opts c' hc'
  obtain ⟨hodd, hpos, _⟩ := reach_skippingClient_odd k s hk
  have hw : wrapInt (c0 + 1) = c0 + 1 := by
    rw [wrapInt_of_range] <;> omega
  have hpage : s'.opts.Page = c0 + 1 := by
    rw [hs]
    simp only [hw]
  omega

theorem reach_skippingClient (k : Nat) (hk : k < 4611686018427387904) :
    ∃ s, reach skippingClient k = some s ∧ s.opts = ⟨2 * (k : Int) + 1, 200⟩ := by
  induction k with
  | zero => exact ⟨initialState, rfl, by simp [initialState]⟩
  | succ k ih =>
    obtain ⟨s, hs, ho⟩ := ih (by omega)
    have hcond : ¬ (s.opts.Page = 2 ∨ 9223372036854775807 ≤ s.opts.Page) := by
      rw [ho]
      simp only
      omega
    have hc : skippingClient s.opts
        = Except.ok ([], ⟨some ⟨false, Except.ok (s.opts.Page + 1)⟩⟩) := by
      unfold skippingClient
      rw [if_neg hcond]
    have hb := loopBody_nonLast skippingClient s [] ⟨false, Except.ok (s.opts.Page + 1)⟩
      (s.opts.Page + 1) hc rfl rfl
    refine ⟨_, reach_succ_of skippingClient k s _ hs hb, ?_⟩
    have hw : wrapInt (s.opts.Page + 1 + 1) = s.opts.Page + 1 + 1 := by
      rw [ho]
      simp only
      rw [wrapInt_of_range] <;> omega
    simp only [hw]
    rw [ho]
    simp only [ListOptions.mk.injEq, and_true]
    push_cast
    omega

theorem listLoop_skippingClient (fuel : Nat) (hfuel : fuel < 4611686018427387904) :
    listLoop skippingClient fuel initialState = none := by
  obtain ⟨s, hs, _⟩ := reach_skippingClient fuel hfuel
  have h := listLoop_of_reach skippingClient fuel s hs 0
  simpa [listLoop] using h

/-- C9 (counterexample): for `skippingClient` every non-last response reports a
current page strictly greater than that of the response before it (the first
one reports page 2), and page 2 is flagged as last; yet the loop has not stopped
after 2 requests, nor after 1000. -/
theorem skippingClient_exceeds_bound :
    monotoneAdvance skippingClient
    ∧ firstReportPositive skippingClient
    ∧ reportsLast skippingClient ⟨2, 200⟩
    ∧ listLoop skippingClient 2 initialState = none
    ∧ listLoop skippingClient 1000 initialState = none := by
  refine ⟨monotoneAdvance_skippingClient, ?_, ?_, listLoop_skippingClient 2 (by decide),
    listLoop_skippingClient 1000 (by decide)⟩
  · intro c hc
    obtain ⟨_, _, hcv⟩ := reportsNonLast_skippingClient initialState.opts c hc
    rw [hcv]
    simp [initialState]
  · exact ⟨_, _, rfl, Or.inr ⟨_, rfl, rfl⟩⟩

theorem loopBody_inr_requests (client : Client) (s : LoopState) (r : LoopResult)
    (h : loopBody client s = Sum.inr r) : r.requests = s.requests ++ [s.opts] := by
  unfold loopBody at h
  cases hc : client s.opts with
  | error err =>
    simp [hc] at h
    rw [← h]
  | ok pr =>
    obtain ⟨droplets, resp⟩ := pr
    obtain ⟨lk⟩ := resp
    cases lk with
    | none =>
      simp [hc] at h
      rw [← h]
    | some links =>
      cases hl : links.IsLastPage with
      | true =>
        simp [hc, hl] at h
        rw [← h]
      | false =>
        cases hp : links.CurrentPage with
        | error err =>
          simp [hc, hl, hp] at h
          rw [← h]
        | ok c => simp [hc, hl, hp] at h

theorem reach_none_succ (client : Client) (k : Nat) (h : reach client k = none) :
    reach client (k + 1) = none := by
  simp [reach, h]

theorem reach_none_of_le (client : Client) (k m : Nat) (h : reach client k = none)
    (hkm : k ≤ m) : reach client m = none := by
  induction m with
  | zero =>
    have : k = 0 := by omega
    rw [← this]; exact h
  | succ m ih =>
    by_cases hk : k = m + 1
    · rw [← hk]; exact h
    · exact reach_none_succ client m (ih (by omega))

theorem reach_some_of_le (client : Client) (k i : Nat) (s : LoopState)
    (h : reach client k = some s) (hik : i ≤ k) : ∃ si, reach client i = some si := by
  cases hi : reach client i with
  | some si => exact ⟨si, rfl⟩
  | none =>
    rw [reach_none_of_le client i k hi hik] at h
    exact absurd h (by simp)

theorem exists_exit_of_reach_none (client : Client) (n : Nat) (h : reach client n = none) :
    ∃ k s r, k < n ∧ reach client k = some s ∧ loopBody client s = Sum.inr r := by
  induction n with
  | zero => simp [reach] at h
  | succ n ih =>
    cases hn : reach client n with
    | none =>
      obtain ⟨k, s, r, hk, hs, hb⟩ := ih hn
      exact ⟨k, s, r, by omega, hs, hb⟩
    | some s =>
      cases hb : loopBody client s with
      | inl t => simp [reach, hn, hb] at h
      | inr r => exact ⟨n, s, r, by omega, hn, hb⟩

theorem reach_requests_get (client : Client) (k : Nat) (s : LoopState)
    (hk : reach client k = some s) (i : Nat) (hi : i ≤ k) :
    ∃ si, reach client i = some si ∧ (s.requests ++ [s.opts])[i]? = some si.opts := by
  induction k generalizing s with
  | zero =>
    have hi0 : i = 0 := by omega
    subst hi0
    refine ⟨s, hk, ?_⟩
    have hlen := reach_requests_length client 0 s hk
    have hnil : s.requests = [] := List.length_eq_zero.mp hlen
    simp [hnil]
  | succ k ih =>
    have hlen := reach_requests_length client (k + 1) s hk
    by_cases hik : i = k + 1
    · subst hik
      refine ⟨s, hk, ?_⟩
      rw [List.getElem?_append_right (by omega)]
      simp [hlen]
    · obtain ⟨t, ht, hb⟩ := reach_succ_inv client k s hk
      obtain ⟨droplets, links, c, _, _, _, hs⟩ := loopBody_inl_inv client t s hb
      obtain ⟨si, hsi, hget⟩ := ih t ht (by omega)
      refine ⟨si, hsi, ?_⟩
      rw [List.getElem?_append_left (by omega)]
      rw [hs]
      simpa using hget

theorem reach_succ_report (client : Client) (hfirst : firstReportPositive client)
    (hmono : monotoneAdvance client) (k : Nat) (s' : LoopState)
    (hk : reach client (k + 1) = some s') :
    ∃ s c, reach client k = some s ∧ reportsNonLast client s.opts c ∧ (k : Int) + 1 ≤ c
      ∧ s'.opts = ⟨wrapInt (c + 1), 200⟩ := by
  induction k generalizing s' with
  | zero =>
    obtain ⟨s, hs, hb⟩ := reach_succ_inv client 0 s' hk
    obtain ⟨droplets, links, c, hc, hl, hp, hs'⟩ := loopBody_inl_inv client s s' hb
    have hrep : reportsNonLast client s.opts c := ⟨droplets, links, hc, hl, hp⟩
    have hinit : s = initialState := by
      simp only [reach, Option.some.injEq] at hs
      exact hs.symm
    have hc1 : 1 ≤ c := hfirst c (by rw [← hinit]; exact hrep)
    refine ⟨s, c, hs, hrep, by simpa using hc1, ?_⟩
    rw [hs', hinit]
    simp [initialState]
  | succ k ih =>
    obtain ⟨s, hs, hb⟩ := reach_succ_inv client (k + 1) s' hk
    obtain ⟨droplets, links, c, hc, hl, hp, hs'⟩ := loopBody_inl_inv client s s' hb
    have hrep : reportsNonLast client s.opts c := ⟨droplets, links, hc, hl, hp⟩
    obtain ⟨s0, c0, hs0, hrep0, hle0, _⟩ := ih s hs
    have hlt : c0 < c := hmono k s0 s c0 c hs0 hs hrep0 hrep
    refine ⟨s, c, hs, hrep, by push_cast; omega, ?_⟩
    rw [hs']
    simp [reach_perPage client (k + 1) s hs]

theorem reportsNonLast_unique (client : Client) (opts : ListOptions) (c c' : Int)
    (h : reportsNonLast client opts c) (h' : reportsNonLast client opts c') : c = c' := by
  obtain ⟨droplets, links, hc, _, hp⟩ := h
  obtain ⟨droplets', links', hc', _, hp'⟩ := h'
  rw [hc] at hc'
  simp only [Except.ok.injEq, Prod.mk.injEq, Response.mk.injEq, Option.some.injEq] at hc'
  rw [← hc'.2, hp] at hp'
  simpa using hp'

theorem reportsNonLast_not_reportsLast (client : Client) (opts : ListOptions) (c : Int)
    (h : reportsNonLast client opts c) : ¬ reportsLast client opts := by
  obtain ⟨droplets, links, hc, hl, _⟩ := h
  rintro ⟨droplets', resp, hc', hlast⟩
  rw [hc] at hc'
  simp only [Except.ok.injEq, Prod.mk.injEq] at hc'
  rw [← hc'.2] at hlast
  rcases hlast with hnone | ⟨links', hsome, htrue⟩
  · simp at hnone
  · simp only [Option.some.injEq] at hsome
    rw [← hsome, hl] at htrue
    simp at htrue

theorem reach_own_pages_inv (client : Client) (N : Nat) (hN : 1 ≤ N)
    (hmax : (N : Int) < 9223372036854775808)
    (hmid : ∀ p : Nat, 1 ≤ p → p < N → reportsNonLast client ⟨(p : Int), 200⟩ (p : Int))
    (hlast : reportsLast client ⟨(N : Int), 200⟩) (k : Nat) (s : LoopState)
    (hk : reach client k = some s) : k < N ∧ s = stateAfterPages client k := by
  have hkN : k < N := by
    by_contra hge
    obtain ⟨m, rfl⟩ : ∃ m, N = m + 1 := ⟨N - 1, by omega⟩
    have hm := reach_of_own_page_numbers client (m + 1) hmax hmid m (by omega)
    obtain ⟨droplets, resp, hc, hl⟩ := hlast
    have hcast : ((m + 1 : Nat) : Int) = (m : Int) + 1 := by push_cast; rfl
    have hc' : client (stateAfterPages client m).opts = Except.ok (droplets, resp) := by
      simp only [stateAfterPages, ← hcast]; exact hc
    have hb := loopBody_last client (stateAfterPages client m) droplets resp hc' hl
    have hnone : reach client (m + 1) = none := by simp [reach, hm, hb]
    rw [reach_none_of_le client (m + 1) k hnone (by omega)] at hk
    simp at hk
  refine ⟨hkN, ?_⟩
  have := reach_of_own_page_numbers client N hmax hmid k hkN
  rw [this] at hk
  simpa using hk.symm

theorem reportsNonLast_own_page (client : Client) (N : Nat)
    (hmid : ∀ p : Nat, 1 ≤ p → p < N → reportsNonLast client ⟨(p : Int), 200⟩ (p : Int))
    (hlast : reportsLast client ⟨(N : Int), 200⟩) (k : Nat) (hk : k < N) (c : Int)
    (h : reportsNonLast client (stateAfterPages client k).opts c) :
    k + 1 < N ∧ c = (k : Int) + 1 := by
  have hcast : ((k + 1 : Nat) : Int) = (k : Int) + 1 := by push_cast; rfl
  have hopts : (stateAfterPages client k).opts = ⟨((k + 1 : Nat) : Int), 200⟩ := by
    simp [stateAfterPages]
  rw [hopts] at h
  have hlt : k + 1 < N := by
    by_contra hge
    have hkN : k + 1 = N := by omega
    rw [hkN] at h
    exact reportsNonLast_not_reportsLast client _ c h hlast
  refine ⟨hlt, ?_⟩
  have := reportsNonLast_unique client _ _ _ h (hmid (k + 1) (by omega) hlt)
  rw [this, hcast]

theorem firstReportPositive_of_own_pages (client : Client) (N : Nat) (hN : 1 ≤ N)
    (hmid : ∀ p : Nat, 1 ≤ p → p < N → reportsNonLast client ⟨(p : Int), 200⟩ (p : Int))
    (hlast : reportsLast client ⟨(N : Int), 200⟩) : firstReportPositive client := by
  intro c hc
  have h0 : initialState.opts = (stateAfterPages client 0).opts := by
    simp [initialState, stateAfterPages]
  rw [h0] at hc
  obtain ⟨_, hcv⟩ := reportsNonLast_own_page client N hmid hlast 0 (by omega) c hc
  rw [hcv]
  simp

theorem monotoneAdvance_of_own_pages (client : Client) (N : Nat) (hN : 1 ≤ N)
    (hmax : (N : Int) < 9223372036854775808)
    (hmid : ∀ p : Nat, 1 ≤ p → p < N → reportsNonLast client ⟨(p : Int), 200⟩ (p : Int))
    (hlast : reportsLast client ⟨(N : Int), 200⟩) : monotoneAdvance client := by
  intro k s s' c c' hk hk' hc hc'
  obtain ⟨hkN, hs⟩ := reach_own_pages_inv client N hN hmax hmid hlast k s hk
  obtain ⟨hkN', hs'⟩ := reach_own_pages_inv client N hN hmax hmid hlast (k + 1) s' hk'
  rw [hs] at hc
  rw [hs'] at hc'
  obtain ⟨_, hcv⟩ := reportsNonLast_own_page client N hmid hlast k hkN c hc
  obtain ⟨_, hcv'⟩ := reportsNonLast_own_page client N hmid hlast (k + 1) hkN' c' hc'
  rw [hcv, hcv']
  push_cast
  omega

theorem lastFrom_of_own_pages (client : Client) (N : Nat) (hN : 1 ≤ N)
    (hmax : (N : Int) < 9223372036854775808)
    (hmid : ∀ p : Nat, 1 ≤ p → p < N → reportsNonLast client ⟨(p : Int), 200⟩ (p : Int))
    (hlast : reportsLast client ⟨(N : Int), 200⟩) : lastFrom client N := by
  intro k s c hk hc
  obtain ⟨hkN, hs⟩ := reach_own_pages_inv client N hN hmax hmid hlast k s hk
  rw [hs] at hc
  obtain ⟨hlt, hcv⟩ := reportsNonLast_own_page client N hmid hlast k hkN c hc
  rw [hcv]
  have : ((k + 1 : Nat) : Int) < (N : Int) := by exact_mod_cast hlt
  push_cast at this
  exact this

theorem threePageClient_own_pages :
    (∀ p : Nat, 1 ≤ p → p < 3 →
      reportsNonLast threePageClient ⟨(p : Int), 200⟩ (p : Int))
    ∧ reportsLast threePageClient ⟨((3 : Nat) : Int), 200⟩ := by
  constructor
  · intro p h1 h3
    interval_cases p
    · exact ⟨_, _, rfl, rfl, rfl⟩
    · exact ⟨_, _, rfl, rfl, rfl⟩
  · exact ⟨_, _, rfl, Or.inr ⟨_, rfl, rfl⟩⟩

/-- C9 (amended): if the first response, when not last, reports a current page of
at least 1, every non-last response reports a current page strictly greater than
that of the response before it, and every response reporting a current page of
`N` or more is flagged as last, then the loop stops after at most `N` requests:
the first asks for page 1, each later one for the reported current page plus
one, all at page size 200. -/
theorem listLoop_stops_within (client : Client) (N : Nat) (hN : 1 ≤ N)
    (hmax : (N : Int) < 9223372036854775808) (hfirst : firstReportPositive client)
    (hmono : monotoneAdvance client) (hlast : lastFrom client N) :
    ∃ r, (∀ fuel, N ≤ fuel → listLoop client fuel initialState = some r)
      ∧ 1 ≤ r.requests.length ∧ r.requests.length ≤ N
      ∧ r.requests[0]? = some ⟨1, 200⟩
      ∧ (∀ (i : Nat) (o o' : ListOptions), r.requests[i]? = some o →
          r.requests[i + 1]? = some o' →
          ∃ c, reportsNonLast client o c ∧ o' = ⟨c + 1, 200⟩) := by
  have hnone : reach client N = none := by
    cases hr : reach client N with
    | none => rfl
    | some s' =>
      obtain ⟨k, rfl⟩ : ∃ k, N = k + 1 := ⟨N - 1, by omega⟩
      obtain ⟨s, c, hs, hrep, hle, _⟩ := reach_succ_report client hfirst hmono k s' hr
      have := hlast k s c hs hrep
      push_cast at this
      omega
  obtain ⟨k, s, r, hkN, hs, hb⟩ := exists_exit_of_reach_none client N hnone
  have hreq := loopBody_inr_requests client s r hb
  have hlen := reach_requests_length client k s hs
  refine ⟨r, ?_, ?_, ?_, ?_, ?_⟩
  · intro fuel hfuel
    exact listLoop_of_exit client k s r hs hb fuel (by omega)
  · rw [hreq]; simp
  · rw [hreq]; simp [hlen]; omega
  · obtain ⟨s0, hs0, hget⟩ := reach_requests_get client k s hs 0 (by omega)
    rw [hreq, hget]
    simp only [reach, Option.some.injEq] at hs0
    rw [← hs0]
    rfl
  · intro i o o' ho ho'
    rw [hreq] at ho ho'
    have hi1 : i + 1 ≤ k := by
      have hsome : (s.requests ++ [s.opts])[i + 1]? ≠ none := by rw [ho']; simp
      have := List.getElem?_eq_none_iff.not.mp hsome
      simp [hlen] at this
      omega
    obtain ⟨si, hsi, hgi⟩ := reach_requests_get client k s hs i (by omega)
    obtain ⟨sj, hsj, hgj⟩ := reach_requests_get client k s hs (i + 1) hi1
    rw [hgi] at ho
    rw [hgj] at ho'
    simp only [Option.some.injEq] at ho ho'
    obtain ⟨t, c, ht, hrep, hle, hopts⟩ := reach_succ_report client hfirst hmono i sj hsj
    rw [hsi] at ht
    simp only [Option.some.injEq] at ht
    subst ht
    have hcN := hlast i si c hsi hrep
    have hw : wrapInt (c + 1) = c + 1 := by
      rw [wrapInt_of_range] <;> omega
    refine ⟨c, by rw [← ho]; exact hrep, ?_⟩
    rw [← ho', hopts, hw]

/-- C9 (amended, instance): the three-page API reports 1 and 2 on its non-last
pages and flags page 3 as last; the loop stops after at most 3 requests. -/
theorem listLoop_stops_within_three_pages :
    firstReportPositive threePageClient ∧ monotoneAdvance threePageClient
    ∧ lastFrom threePageClient 3
    ∧ ∃ r, (∀ fuel, 3 ≤ fuel → listLoop threePageClient fuel initialState = some r)
      ∧ 1 ≤ r.requests.length ∧ r.requests.length ≤ 3
      ∧ r.requests[0]? = some ⟨1, 200⟩
      ∧ (∀ (i : Nat) (o o' : ListOptions), r.requests[i]? = some o →
          r.requests[i + 1]? = some o' →
          ∃ c, reportsNonLast threePageClient o c ∧ o' = ⟨c + 1, 200⟩) := by
  have hfirst := firstReportPositive_of_own_pages threePageClient 3 (by decide)
    threePageClient_own_pages.1 threePageClient_own_pages.2
  have hmono := monotoneAdvance_of_own_pages threePageClient 3 (by decide) (by decide)
    threePageClient_own_pages.1 threePageClient_own_pages.2
  have hlast := lastFrom_of_own_pages threePageClient 3 (by decide) (by decide)
    threePageClient_own_pages.1 threePageClient_own_pages.2
  exact ⟨hfirst, hmono, hlast,
    listLoop_stops_within threePageClient 3 (by decide) (by decide) hfirst hmono hlast⟩

end DropletList
